import Mathlib

/-!
Shallow embedding of the Conversation Controller implemented in
`src/ai_qna_frontend/src/App.js`.

The React component `App` owns four pieces of state: `theme`, the draft
`question`, the in-flight flag `isAsking`, and the `messages` list.  The
handlers `handleSubmit`, `askAI` and `toggleTheme` are embedded below as pure
state-transition functions.  The asynchronous structure of `handleSubmit` is
embedded by splitting it at its single suspension point (`await askAI(q)`):
`submit` is the synchronous phase before the await (guard, push user message,
clear draft, set the flag) and `resolveSuccess` / `resolveFailure` are the
continuation run when the awaited promise settles (the `try` branch after the
await, the `catch` branch, and the `finally` clause).  The question captured
by the suspended call frame is recorded in the `pending` field.  Calls to
`Date.now()` are embedded as an explicit clock argument `now : Nat`;
`new Date().toISOString()` is abstracted to the same clock value in the
informational `ts` field.
-/

namespace AiQna

/-- Whitespace test used by JavaScript `String.prototype.trim`, restricted to
the characters that can occur here: ASCII whitespace, no-break space and the
byte-order mark. -/
def isJsWhitespace (c : Char) : Bool :=
  c == ' ' || c == '\t' || c == '\n' || c == '\r' ||
  c == '\x0b' || c == '\x0c' || c == '\u00A0' || c == '\uFEFF'

/-- Embedding of JavaScript `question.trim()`: remove leading and trailing
whitespace. -/
def trim (s : String) : String :=
  List.asString (((s.data.dropWhile isJsWhitespace).reverse.dropWhile
    isJsWhitespace).reverse)

/-- One chat message, as constructed in `App.js`.  The `error` field is absent
(undefined, hence falsy) on user and successful assistant messages, which is
embedded as the default `false`. -/
structure Message where
  id : String
  role : String
  content : String
  ts : Nat
  error : Bool := false
deriving DecidableEq

/-- The component state of `App`: `theme`, `question`, `isAsking`, `messages`,
plus `pending`, the question held by the suspended `askAI` call frame (see the
module comment). -/
structure AppState where
  theme : String
  question : String
  isAsking : Bool
  messages : List Message
  pending : Option String
deriving DecidableEq

/-- The seeded welcome message (initial `useState` value for `messages`). -/
def welcomeMessage : Message :=
  { id := "welcome"
    role := "assistant"
    content := "Hi! I\x27m your AI assistant. Ask me anything, and I\x27ll do my best to help with clear, concise answers."
    ts := 0 }

/-- Initial component state: light theme, empty draft, not asking, exactly the
welcome message, no pending request. -/
def initState : AppState :=
  { theme := "light"
    question := ""
    isAsking := false
    messages := [welcomeMessage]
    pending := none }

/-- The canned answer returned by the stub provider. -/
def cannedAnswer : String :=
  "Here\x27s a concise explanation:\n\n- React hooks let you use state and lifecycle features in functional components.\n- Common hooks: useState for state, useEffect for side effects, useMemo/useCallback for memoization.\n- Keep hooks at the top level and never inside conditions or loops.\n\nWould you like a small code example?"

/-- Stub Answer Provider `askAI`: after a fixed latency (irrelevant to state)
it resolves with the canned answer, ignoring its input. -/
def askAI (q : String) : String := cannedAnswer

/-- The fixed apology text of the `catch` branch of `handleSubmit`. -/
def apologyText : String :=
  "Sorry, something went wrong while fetching the answer. Please try again."

/-- The `onChange` handler of the textarea: `setQuestion(e.target.value)`. -/
def updateDraft (s : AppState) (text : String) : AppState :=
  { s with question := text }

/-- The user message pushed by `handleSubmit` on acceptance. -/
def userMessage (q : String) (now : Nat) : Message :=
  { id := "u-" ++ Nat.repr now, role := "user", content := q, ts := now }

/-- Synchronous phase of `handleSubmit`, up to `await askAI(q)`:
`const q = question.trim(); if (!q || isAsking) return;` then push the user
message, clear the draft and set the flag. -/
def submit (s : AppState) (now : Nat) : AppState :=
  let q := trim s.question
  if q == "" || s.isAsking then s
  else
    { s with
      messages := s.messages ++ [userMessage q now]
      question := ""
      isAsking := true
      pending := some q }

/-- The assistant message pushed after a successful `await askAI(q)`. -/
def assistantMessage (answer : String) (now : Nat) : Message :=
  { id := "a-" ++ Nat.repr now, role := "assistant", content := answer
    ts := now }

/-- The error message pushed by the `catch` branch. -/
def errorMessage (now : Nat) : Message :=
  { id := "e-" ++ Nat.repr now, role := "assistant", content := apologyText
    ts := now, error := true }

/-- Continuation of `handleSubmit` when the provider call resolves
successfully: push the assistant message, then (`finally`) clear the flag. -/
def resolveSuccess (s : AppState) (answer : String) (now : Nat) : AppState :=
  { s with
    messages := s.messages ++ [assistantMessage answer now]
    isAsking := false
    pending := none }

/-- Continuation of `handleSubmit` when the provider call fails (`catch`
branch): push the fixed error message, then (`finally`) clear the flag. -/
def resolveFailure (s : AppState) (now : Nat) : AppState :=
  { s with
    messages := s.messages ++ [errorMessage now]
    isAsking := false
    pending := none }

/-- The `toggleTheme` handler: it maps a light theme to light and any other
theme also to light (the ternary in the source has identical branches). -/
def toggleTheme (s : AppState) : AppState :=
  { s with theme := if s.theme == "light" then "light" else "light" }

/-- Session events: a draft edit, a form submission at clock value `now`, the
settlement of the outstanding provider promise (failed or not) at clock value
`now`, or a click on the theme toggle. -/
inductive Event where
  | updateDraft (text : String)
  | submit (now : Nat)
  | resolve (now : Nat) (failed : Bool)
  | toggleTheme
deriving DecidableEq

/-- Single-step semantics.  A `resolve` event settles the suspended `askAI`
call, so it only has an effect while a call frame is pending; the stub
resolves with `askAI q`. -/
def applyEvent (s : AppState) : Event → AppState
  | Event.updateDraft text => updateDraft s text
  | Event.submit now => submit s now
  | Event.resolve now failed =>
      match s.pending with
      | none => s
      | some q =>
          if failed then resolveFailure s now
          else resolveSuccess s (askAI q) now
  | Event.toggleTheme => toggleTheme s

/-- Run a session: fold the events over a starting state. -/
def run (s : AppState) (es : List Event) : AppState :=
  es.foldl applyEvent s

theorem run_nil (s : AppState) : run s [] = s := rfl

theorem run_cons (s : AppState) (e : Event) (es : List Event) :
    run s (e :: es) = run (applyEvent s e) es := rfl

/-!
Decimal rendering.  Message identifiers are built with `Nat.repr` (the
embedding of the template literal over `Date.now()`), so uniqueness of
identifiers rests on injectivity of `Nat.repr`, proved here via the
simple digit-list function `decDigits`.
-/

/-- Decimal digit list of a natural number, most significant first. -/
def decDigits (n : Nat) : List Char :=
  if n < 10 then [Nat.digitChar n]
  else decDigits (n / 10) ++ [Nat.digitChar (n % 10)]
termination_by n
decreasing_by exact Nat.div_lt_self (by omega) (by omega)

theorem decDigits_small {n : Nat} (h : n < 10) :
    decDigits n = [Nat.digitChar n] := by
  rw [decDigits, if_pos h]

theorem decDigits_large {n : Nat} (h : ¬ n < 10) :
    decDigits n = decDigits (n / 10) ++ [Nat.digitChar (n % 10)] := by
  rw [decDigits, if_neg h]

theorem decDigits_ne_nil (n : Nat) : decDigits n ≠ [] := by
  by_cases h : n < 10
  · rw [decDigits_small h]; simp
  · rw [decDigits_large h]; simp

theorem digitChar_inj :
    ∀ a < 10, ∀ b < 10, Nat.digitChar a = Nat.digitChar b → a = b := by
  decide

theorem decDigits_inj : ∀ n m : Nat, decDigits n = decDigits m → n = m := by
  intro n
  induction n using Nat.strong_induction_on with
  | _ n ih =>
    intro m h
    by_cases hn : n < 10 <;> by_cases hm : m < 10
    · rw [decDigits_small hn, decDigits_small hm] at h
      exact digitChar_inj n hn m hm (List.singleton_inj.mp h)
    · exfalso
      rw [decDigits_small hn, decDigits_large hm] at h
      have hlen := congrArg List.length h
      simp [List.length_append] at hlen
      exact decDigits_ne_nil (m / 10) hlen
    · exfalso
      rw [decDigits_large hn, decDigits_small hm] at h
      have hlen := congrArg List.length h
      simp [List.length_append] at hlen
      exact decDigits_ne_nil (n / 10) hlen
    · rw [decDigits_large hn, decDigits_large hm] at h
      have h2 := List.append_inj' h rfl
      have hdiv : n / 10 = m / 10 :=
        ih (n / 10) (Nat.div_lt_self (by omega) (by omega)) (m / 10) h2.1
      have hmod : n % 10 = m % 10 :=
        digitChar_inj _ (Nat.mod_lt _ (by omega)) _ (Nat.mod_lt _ (by omega))
          (List.singleton_inj.mp h2.2)
      omega

theorem toDigitsCore_eq : ∀ (fuel n : Nat) (ds : List Char), n < fuel →
    Nat.toDigitsCore 10 fuel n ds = decDigits n ++ ds := by
  intro fuel
  induction fuel with
  | zero => intro n ds h; omega
  | succ f ihf =>
    intro n ds h
    rw [Nat.toDigitsCore]
    by_cases h10 : n / 10 = 0
    · have hn : n < 10 := by omega
      simp only [h10, if_pos]
      rw [decDigits_small hn]
      have hmod : n % 10 = n := by omega
      rw [hmod]
      rfl
    · simp only [h10, if_neg]
      rw [ihf (n / 10) _ (by omega)]
      rw [decDigits_large (by omega : ¬ n < 10)]
      simp [List.append_assoc]

theorem repr_data (n : Nat) : (Nat.repr n).data = decDigits n := by
  show Nat.toDigitsCore 10 (n + 1) n [] = decDigits n
  rw [toDigitsCore_eq (n + 1) n [] (Nat.lt_succ_self n), List.append_nil]

theorem repr_inj {n m : Nat} (h : Nat.repr n = Nat.repr m) : n = m :=
  decDigits_inj n m (by rw [← repr_data, ← repr_data, h])

theorem cons2_append_inj {c₁ c₂ : Char} {l₁ l₂ : List Char}
    (h : c₁ :: '-' :: l₁ = c₂ :: '-' :: l₂) : c₁ = c₂ ∧ l₁ = l₂ := by
  injection h with h1 h2
  injection h2 with h2a h3
  exact ⟨h1, h3⟩

/-- Identifiers of the shape produced at append time determine their tag
character and their clock stamp. -/
theorem stamp_eq {c₁ c₂ : Char} {t₁ t₂ : Nat}
    (h : String.mk [c₁, '-'] ++ Nat.repr t₁ = String.mk [c₂, '-'] ++ Nat.repr t₂) :
    c₁ = c₂ ∧ t₁ = t₂ := by
  have hd := congrArg String.data h
  simp only [String.data_append] at hd
  have hd' : c₁ :: '-' :: (Nat.repr t₁).data = c₂ :: '-' :: (Nat.repr t₂).data := hd
  obtain ⟨h1, h2⟩ := cons2_append_inj hd'
  exact ⟨h1, repr_inj (String.ext h2)⟩

theorem welcome_ne_stamp {c : Char} {t : Nat} (hc : c ≠ 'w') :
    "welcome" ≠ String.mk [c, '-'] ++ Nat.repr t := by
  intro h
  have hd := congrArg String.data h
  simp only [String.data_append] at hd
  have hd' : 'w' :: "elcome".data = c :: '-' :: (Nat.repr t).data := hd
  injection hd' with h1 h2
  exact hc h1.symm

/-!
Invariants of the session semantics.
-/

/-- Generic preservation of a predicate along a run. -/
theorem run_preserves {P : AppState → Prop}
    (hstep : ∀ s e, P s → P (applyEvent s e)) :
    ∀ (es : List Event) (s : AppState), P s → P (run s es)
  | [], _, h => h
  | e :: es, s, h => run_preserves hstep es (applyEvent s e) (hstep s e h)

/-- Tag characters of identifiers generated at append time: `u` for user
messages, `a` for assistant messages, `e` for error messages. -/
def StampChar (c : Char) : Prop := c = 'u' ∨ c = 'a' ∨ c = 'e'

/-- An identifier possible in a state whose next clock reading is at least
`n`: either the seeded one or tag-dash-stamp with stamp below `n`. -/
def IdStamped (n : Nat) (i : String) : Prop :=
  i = "welcome" ∨
    ∃ c t, StampChar c ∧ t < n ∧ i = String.mk [c, '-'] ++ Nat.repr t

/-- Identifier invariant: all identifiers are pairwise distinct and stamped
below `n`. -/
def IdsOk (n : Nat) (ms : List Message) : Prop :=
  (ms.map Message.id).Nodup ∧ ∀ m ∈ ms, IdStamped n m.id

theorem idStamped_mono {n k : Nat} {i : String} (h : IdStamped n i)
    (hk : n ≤ k) : IdStamped k i := by
  rcases h with h | ⟨c, t, hc, ht, hi⟩
  · exact Or.inl h
  · exact Or.inr ⟨c, t, hc, by omega, hi⟩

theorem idsOk_mono {n k : Nat} {ms : List Message} (h : IdsOk n ms)
    (hk : n ≤ k) : IdsOk k ms :=
  ⟨h.1, fun m hm => idStamped_mono (h.2 m hm) hk⟩

theorem idStamped_ne_fresh {n t : Nat} {i : String} {c : Char}
    (h : IdStamped n i) (hnt : n ≤ t) (hc : StampChar c) :
    i ≠ String.mk [c, '-'] ++ Nat.repr t := by
  rcases h with rfl | ⟨c', t', hc', ht', hi⟩
  · exact welcome_ne_stamp (by rcases hc with rfl | rfl | rfl <;> decide)
  · rw [hi]
    intro he
    have := (stamp_eq he).2
    omega

theorem idsOk_push {n t : Nat} {ms : List Message} {c : Char} {m : Message}
    (h : IdsOk n ms) (hnt : n ≤ t) (hc : StampChar c)
    (hm : m.id = String.mk [c, '-'] ++ Nat.repr t) :
    IdsOk (t + 1) (ms ++ [m]) := by
  constructor
  · rw [List.map_append, List.nodup_append]
    refine ⟨h.1, List.nodup_singleton _, ?_⟩
    intro x hx hx2
    simp only [List.map_cons, List.map_nil, List.mem_singleton] at hx2
    obtain ⟨mm, hmm, rfl⟩ := List.mem_map.mp hx
    exact idStamped_ne_fresh (h.2 mm hmm) hnt hc (hx2.trans hm)
  · intro mm hmm
    rcases List.mem_append.mp hmm with hin | hin
    · exact idStamped_mono (h.2 mm hin) (by omega)
    · rw [List.mem_singleton.mp hin, hm]
      exact Or.inr ⟨c, t, hc, by omega, rfl⟩

/-- Clock discipline of a session: successive readings of the clock are
strictly increasing (`Date.now()` never repeats across the events of one
session). -/
def clockOk : Nat → List Event → Bool
  | _, [] => true
  | n, Event.updateDraft _ :: es => clockOk n es
  | n, Event.toggleTheme :: es => clockOk n es
  | n, Event.submit t :: es => Nat.ble n t && clockOk (t + 1) es
  | n, Event.resolve t _ :: es => Nat.ble n t && clockOk (t + 1) es

theorem idsOk_run : ∀ (es : List Event) (n : Nat) (s : AppState),
    IdsOk n s.messages → clockOk n es = true →
    ∃ k, IdsOk k (run s es).messages := by
  intro es
  induction es with
  | nil => intro n s h _; exact ⟨n, h⟩
  | cons e es ih =>
    intro n s h hc
    cases e with
    | updateDraft text => exact ih n _ h hc
    | toggleTheme => exact ih n _ h hc
    | submit t =>
        rw [clockOk, Bool.and_eq_true] at hc
        have hnt : n ≤ t := Nat.le_of_ble_eq_true hc.1
        rw [run_cons]
        apply ih (t + 1) _ _ hc.2
        show IdsOk (t + 1) (submit s t).messages
        by_cases hg : (trim s.question == "" || s.isAsking) = true
        · simp only [submit, hg, if_true]
          exact idsOk_mono h (by omega)
        · simp only [submit, hg, if_false, Bool.not_eq_true]
          exact idsOk_push h hnt (Or.inl rfl) rfl
    | resolve t failed =>
        rw [clockOk, Bool.and_eq_true] at hc
        have hnt : n ≤ t := Nat.le_of_ble_eq_true hc.1
        rw [run_cons]
        apply ih (t + 1) _ _ hc.2
        cases hp : s.pending with
        | none =>
            show IdsOk (t + 1) (applyEvent s (Event.resolve t failed)).messages
            simp only [applyEvent, hp]
            exact idsOk_mono h (by omega)
        | some q =>
            show IdsOk (t + 1) (applyEvent s (Event.resolve t failed)).messages
            simp only [applyEvent, hp]
            cases failed with
            | true =>
                rw [if_pos rfl]
                exact idsOk_push h hnt (Or.inr (Or.inr rfl)) rfl
            | false =>
                rw [if_neg Bool.false_ne_true]
                exact idsOk_push h hnt (Or.inr (Or.inl rfl)) rfl

/-- Conversation shape after the welcome message: complete user-assistant
pairs, with one trailing unanswered user message exactly while a request is
in flight. -/
def roleShape : List Message → Bool → Bool
  | [], asking => !asking
  | [m], asking => asking && (m.role == "user")
  | u :: a :: rest, asking =>
      (u.role == "user") && (a.role == "assistant") && roleShape rest asking

theorem roleShape_push_user (m : Message) (hm : m.role = "user") :
    ∀ l : List Message, roleShape l false = true →
      roleShape (l ++ [m]) true = true
  | [], _ => by simp [roleShape, hm]
  | [u], h => by simp [roleShape] at h
  | u :: a :: rest, h => by
      simp only [roleShape, Bool.and_eq_true] at h
      simp only [List.cons_append, roleShape, Bool.and_eq_true]
      exact ⟨h.1, roleShape_push_user m hm rest h.2⟩

theorem roleShape_push_assistant (m : Message) (hm : m.role = "assistant") :
    ∀ l : List Message, roleShape l true = true →
      roleShape (l ++ [m]) false = true
  | [], h => by simp [roleShape] at h
  | [u], h => by
      simp only [roleShape, Bool.and_eq_true] at h
      simp [roleShape, hm, h]
  | u :: a :: rest, h => by
      simp only [roleShape, Bool.and_eq_true] at h
      simp only [List.cons_append, roleShape, Bool.and_eq_true]
      exact ⟨h.1, roleShape_push_assistant m hm rest h.2⟩

/-- Shape invariant: the in-flight flag mirrors the pending call frame, and
the conversation is the welcome message followed by a well-shaped tail. -/
def ShapeInv (s : AppState) : Prop :=
  s.isAsking = s.pending.isSome ∧
  ∃ rest, s.messages = welcomeMessage :: rest ∧
    roleShape rest s.isAsking = true

theorem shapeInv_init : ShapeInv initState :=
  ⟨rfl, [], rfl, rfl⟩

theorem shapeInv_step (s : AppState) (e : Event) (h : ShapeInv s) :
    ShapeInv (applyEvent s e) := by
  obtain ⟨hsync, rest, hmsg, hshape⟩ := h
  cases e with
  | updateDraft text => exact ⟨hsync, rest, hmsg, hshape⟩
  | toggleTheme => exact ⟨hsync, rest, hmsg, hshape⟩
  | submit t =>
      show ShapeInv (submit s t)
      by_cases hg : (trim s.question == "" || s.isAsking) = true
      · simp only [submit, hg, if_true]
        exact ⟨hsync, rest, hmsg, hshape⟩
      · have hask : s.isAsking = false := by
          revert hg; cases s.isAsking <;> simp
        simp only [submit, hg, if_false, Bool.not_eq_true]
        refine ⟨rfl, rest ++ [userMessage (trim s.question) t], ?_, ?_⟩
        · rw [hmsg]; rfl
        · rw [hask] at hshape
          exact roleShape_push_user _ rfl rest hshape
  | resolve t failed =>
      cases hp : s.pending with
      | none =>
          show ShapeInv (applyEvent s (Event.resolve t failed))
          simp only [applyEvent, hp]
          exact ⟨hsync, rest, hmsg, hshape⟩
      | some q =>
          have hask : s.isAsking = true := by rw [hsync, hp]; rfl
          show ShapeInv (applyEvent s (Event.resolve t failed))
          simp only [applyEvent, hp]
          rw [hask] at hshape
          cases failed with
          | true =>
              rw [if_pos rfl]
              refine ⟨rfl, rest ++ [errorMessage t], ?_, ?_⟩
              · show s.messages ++ [errorMessage t]
                    = welcomeMessage :: (rest ++ [errorMessage t])
                rw [hmsg]; rfl
              · exact roleShape_push_assistant _ rfl rest hshape
          | false =>
              rw [if_neg Bool.false_ne_true]
              refine ⟨rfl, rest ++ [assistantMessage (askAI q) t], ?_, ?_⟩
              · show s.messages ++ [assistantMessage (askAI q) t]
                    = welcomeMessage :: (rest ++ [assistantMessage (askAI q) t])
                rw [hmsg]; rfl
              · exact roleShape_push_assistant _ rfl rest hshape

/-- Content invariant: no message ever has empty content. -/
def ContentInv (s : AppState) : Prop := ∀ m ∈ s.messages, m.content ≠ ""

theorem contentInv_push {ms : List Message} {x : Message}
    (h : ∀ m ∈ ms, m.content ≠ "") (hx : x.content ≠ "") :
    ∀ m ∈ ms ++ [x], m.content ≠ "" := by
  intro m hm
  rcases List.mem_append.mp hm with hin | hin
  · exact h m hin
  · rw [List.mem_singleton.mp hin]; exact hx

theorem contentInv_init : ContentInv initState := by
  intro m hm
  rw [List.mem_singleton.mp hm]
  decide

theorem contentInv_step (s : AppState) (e : Event) (h : ContentInv s) :
    ContentInv (applyEvent s e) := by
  cases e with
  | updateDraft text => exact h
  | toggleTheme => exact h
  | submit t =>
      show ContentInv (submit s t)
      by_cases hg : (trim s.question == "" || s.isAsking) = true
      · simp only [submit, hg, if_true]; exact h
      · have hqb : (trim s.question == "") = false := by
          revert hg; cases trim s.question == "" <;> simp
        have hq : trim s.question ≠ "" := by
          intro hc; rw [hc] at hqb; simp at hqb
        simp only [submit, hg, if_false, Bool.not_eq_true]
        exact contentInv_push h hq
  | resolve t failed =>
      cases hp : s.pending with
      | none =>
          show ContentInv (applyEvent s (Event.resolve t failed))
          simp only [applyEvent, hp]; exact h
      | some q =>
          show ContentInv (applyEvent s (Event.resolve t failed))
          simp only [applyEvent, hp]
          cases failed with
          | true =>
              rw [if_pos rfl]
              exact contentInv_push h (show apologyText ≠ "" from by decide)
          | false =>
              rw [if_neg Bool.false_ne_true]
              exact contentInv_push h (show cannedAnswer ≠ "" from by decide)

theorem theme_step (s : AppState) (e : Event) (h : s.theme = "light") :
    (applyEvent s e).theme = "light" := by
  cases e with
  | updateDraft text => exact h
  | toggleTheme =>
      show (toggleTheme s).theme = "light"
      simp only [toggleTheme]
      cases hb : s.theme == "light" <;> rfl
  | submit t =>
      show (submit s t).theme = "light"
      by_cases hg : (trim s.question == "" || s.isAsking) = true
      · simp only [submit, hg, if_true]; exact h
      · simp only [submit, hg, if_false, Bool.not_eq_true]; exact h
  | resolve t failed =>
      cases hp : s.pending with
      | none =>
          show (applyEvent s (Event.resolve t failed)).theme = "light"
          simp only [applyEvent, hp]; exact h
      | some q =>
          show (applyEvent s (Event.resolve t failed)).theme = "light"
          simp only [applyEvent, hp]
          cases failed with
          | true => rw [if_pos rfl]; exact h
          | false => rw [if_neg Bool.false_ne_true]; exact h

theorem toggleTheme_self {s : AppState} (h : s.theme = "light") :
    toggleTheme s = s := by
  cases s with
  | mk theme question isAsking messages pending =>
      simp only [toggleTheme] at *
      simp [h]

/-!
Claim theorems.
-/

/-- C1: for every draft whose trimmed text is non-empty, when no request is
in flight, `submit` appends exactly one user message whose content is the
trimmed draft text, clears the draft to the empty string and sets the
in-flight flag; this all happens in the synchronous phase, before the Answer
Provider result is known (a `resolve` event is a separate, later step). -/
theorem submit_appends_user_clears_draft_sets_inflight
    (s : AppState) (now : Nat)
    (hq : trim s.question ≠ "") (hask : s.isAsking = false) :
    (submit s now).messages
      = s.messages ++ [userMessage (trim s.question) now] ∧
    (userMessage (trim s.question) now).role = "user" ∧
    (userMessage (trim s.question) now).content = trim s.question ∧
    (submit s now).question = "" ∧
    (submit s now).isAsking = true := by
  have hqb : (trim s.question == "") = false := beq_eq_false_iff_ne.mpr hq
  have hg : ¬(trim s.question == "" || s.isAsking) = true := by
    rw [hqb, hask]; simp
  simp only [submit]
  rw [if_neg hg]
  exact ⟨rfl, rfl, rfl, rfl, rfl⟩

theorem submit_appends_user_clears_draft_sets_inflight_witness :
    trim (updateDraft initState "hi").question ≠ "" ∧
    (updateDraft initState "hi").isAsking = false ∧
    ((submit (updateDraft initState "hi") 5).messages
        = (updateDraft initState "hi").messages
          ++ [userMessage (trim (updateDraft initState "hi").question) 5] ∧
      (userMessage (trim (updateDraft initState "hi").question) 5).role
        = "user" ∧
      (userMessage (trim (updateDraft initState "hi").question) 5).content
        = trim (updateDraft initState "hi").question ∧
      (submit (updateDraft initState "hi") 5).question = "" ∧
      (submit (updateDraft initState "hi") 5).isAsking = true) :=
  ⟨by decide, rfl,
    submit_appends_user_clears_draft_sets_inflight (updateDraft initState "hi")
      5 (by decide) rfl⟩

/-- C2: for every accepted submission (a pending provider call exists) whose
Answer Provider call resolves successfully, exactly one assistant message is
appended whose content is the resolved answer, with `error = false`, and the
in-flight flag becomes false afterwards. -/
theorem resolve_success_appends_answer (s : AppState) (q : String) (now : Nat)
    (h : s.pending = some q) :
    (applyEvent s (Event.resolve now false)).messages
      = s.messages ++ [assistantMessage (askAI q) now] ∧
    (assistantMessage (askAI q) now).role = "assistant" ∧
    (assistantMessage (askAI q) now).content = askAI q ∧
    (assistantMessage (askAI q) now).error = false ∧
    (applyEvent s (Event.resolve now false)).isAsking = false := by
  simp only [applyEvent, h]
  rw [if_neg Bool.false_ne_true]
  exact ⟨rfl, rfl, rfl, rfl, rfl⟩

theorem resolve_success_appends_answer_witness :
    (submit (updateDraft initState "hi") 1).pending = some "hi" ∧
    ((applyEvent (submit (updateDraft initState "hi") 1)
        (Event.resolve 2 false)).messages
      = (submit (updateDraft initState "hi") 1).messages
        ++ [assistantMessage (askAI "hi") 2] ∧
    (assistantMessage (askAI "hi") 2).role = "assistant" ∧
    (assistantMessage (askAI "hi") 2).content = askAI "hi" ∧
    (assistantMessage (askAI "hi") 2).error = false ∧
    (applyEvent (submit (updateDraft initState "hi") 1)
        (Event.resolve 2 false)).isAsking = false) :=
  ⟨by decide,
    resolve_success_appends_answer (submit (updateDraft initState "hi") 1)
      "hi" 2 (by decide)⟩

/-- C3: for every accepted submission (a pending provider call exists) whose
Answer Provider call fails, exactly one assistant message is appended with
the fixed apology content and `error = true`, and the in-flight flag becomes
false afterwards; `applyEvent` is a total function, so no exception
propagates to the caller (the failure is absorbed by the `catch` branch). -/
theorem resolve_failure_appends_apology (s : AppState) (q : String)
    (now : Nat) (h : s.pending = some q) :
    (applyEvent s (Event.resolve now true)).messages
      = s.messages ++ [errorMessage now] ∧
    (errorMessage now).role = "assistant" ∧
    (errorMessage now).content = apologyText ∧
    (errorMessage now).error = true ∧
    (applyEvent s (Event.resolve now true)).isAsking = false := by
  simp only [applyEvent, h]
  rw [if_pos trivial]
  exact ⟨rfl, rfl, rfl, rfl, rfl⟩

theorem resolve_failure_appends_apology_witness :
    (submit (updateDraft initState "hi") 1).pending = some "hi" ∧
    ((applyEvent (submit (updateDraft initState "hi") 1)
        (Event.resolve 2 true)).messages
      = (submit (updateDraft initState "hi") 1).messages
        ++ [errorMessage 2] ∧
    (errorMessage 2).role = "assistant" ∧
    (errorMessage 2).content = apologyText ∧
    (errorMessage 2).error = true ∧
    (applyEvent (submit (updateDraft initState "hi") 1)
        (Event.resolve 2 true)).isAsking = false) :=
  ⟨by decide,
    resolve_failure_appends_apology (submit (updateDraft initState "hi") 1)
      "hi" 2 (by decide)⟩

/-- C4: a call to `submit` whose draft trims to the empty string, or made
while a request is in flight, is a silent no-op: the state is returned
unchanged (no message appended, draft and in-flight flag untouched) and, the
function being total, no error is raised. -/
theorem submit_rejected_is_noop (s : AppState) (now : Nat)
    (h : trim s.question = "" ∨ s.isAsking = true) :
    submit s now = s := by
  rcases h with h | h
  · simp [submit, h]
  · simp [submit, h]

theorem submit_rejected_is_noop_witness :
    trim initState.question = "" ∧ submit initState 7 = initState :=
  ⟨rfl, submit_rejected_is_noop initState 7 (Or.inl rfl)⟩

/-- C5: in any session whose clock readings are strictly increasing, all
message identifiers are pairwise distinct, and the conversation is the
welcome message followed by complete user-then-assistant pairs with a
trailing unanswered user message exactly while in flight, so each user
message precedes its corresponding assistant or error message. -/
theorem ids_unique_and_user_precedes_answer (es : List Event)
    (h : clockOk 0 es = true) :
    ((run initState es).messages.map Message.id).Nodup ∧
    ∃ rest, (run initState es).messages = welcomeMessage :: rest ∧
      roleShape rest (run initState es).isAsking = true := by
  have hinit : IdsOk 0 initState.messages := by
    constructor
    · exact List.nodup_singleton _
    · intro m hm
      rw [List.mem_singleton.mp hm]
      exact Or.inl rfl
  obtain ⟨k, hk⟩ := idsOk_run es 0 initState hinit h
  have hshape := run_preserves shapeInv_step es initState shapeInv_init
  exact ⟨hk.1, hshape.2⟩

theorem ids_unique_and_user_precedes_answer_witness :
    clockOk 0
      [Event.updateDraft "hi", Event.submit 1, Event.resolve 2 false]
      = true ∧
    (((run initState
        [Event.updateDraft "hi", Event.submit 1,
          Event.resolve 2 false]).messages.map Message.id).Nodup ∧
      ∃ rest,
        (run initState
          [Event.updateDraft "hi", Event.submit 1,
            Event.resolve 2 false]).messages = welcomeMessage :: rest ∧
        roleShape rest
          (run initState
            [Event.updateDraft "hi", Event.submit 1,
              Event.resolve 2 false]).isAsking = true) :=
  ⟨rfl, ids_unique_and_user_precedes_answer
    [Event.updateDraft "hi", Event.submit 1, Event.resolve 2 false] rfl⟩

/-- C6: the initial state has exactly the seeded assistant welcome message,
an empty draft and a cleared in-flight flag. -/
theorem initial_state_seeded :
    initState.messages = [welcomeMessage] ∧
    welcomeMessage.role = "assistant" ∧
    initState.question = "" ∧
    initState.isAsking = false :=
  ⟨rfl, rfl, rfl, rfl⟩

/-- C7: the stub Answer Provider always resolves with the single canned
answer; its result is deterministic and independent of its input. -/
theorem askAI_constant_deterministic :
    (∀ q : String, askAI q = cannedAnswer) ∧
    (∀ q₁ q₂ : String, askAI q₁ = askAI q₂) :=
  ⟨fun _ => rfl, fun _ _ => rfl⟩

/-- C8: the conversation is append-only: every state transition leaves the
existing messages unchanged in content and position and only ever adds new
messages at the end. -/
theorem conversation_append_only (s : AppState) (e : Event) :
    ∃ tail, (applyEvent s e).messages = s.messages ++ tail := by
  cases e with
  | updateDraft text => exact ⟨[], (List.append_nil _).symm⟩
  | toggleTheme => exact ⟨[], (List.append_nil _).symm⟩
  | submit t =>
      show ∃ tail, (submit s t).messages = s.messages ++ tail
      by_cases hg : (trim s.question == "" || s.isAsking) = true
      · refine ⟨[], ?_⟩
        simp only [submit]
        rw [if_pos hg]
        exact (List.append_nil _).symm
      · refine ⟨[userMessage (trim s.question) t], ?_⟩
        simp only [submit]
        rw [if_neg hg]
  | resolve t failed =>
      cases hp : s.pending with
      | none =>
          refine ⟨[], ?_⟩
          simp only [applyEvent, hp]
          exact (List.append_nil _).symm
      | some q =>
          cases failed with
          | true =>
              refine ⟨[errorMessage t], ?_⟩
              simp only [applyEvent, hp]
              rw [if_pos trivial]
              rfl
          | false =>
              refine ⟨[assistantMessage (askAI q) t], ?_⟩
              simp only [applyEvent, hp]
              rw [if_neg Bool.false_ne_true]
              rfl

/-- C9: in every reachable state, every message in the conversation has
non-empty content: the welcome text, the trimmed user text (guarded
non-empty at submission), the canned answer and the fixed apology are all
non-empty. -/
theorem contents_nonempty (es : List Event) (m : Message)
    (hm : m ∈ (run initState es).messages) : m.content ≠ "" :=
  run_preserves contentInv_step es initState contentInv_init m hm

theorem contents_nonempty_witness :
    welcomeMessage ∈ (run initState []).messages ∧
    welcomeMessage.content ≠ "" :=
  ⟨by decide, contents_nonempty [] welcomeMessage (by decide)⟩

/-- C10: in every reachable state the theme is the constant light theme;
`toggleTheme` maps a light theme to light and every other value also to
light, and applying it to a reachable state never changes the state. -/
theorem theme_always_light (es : List Event) :
    (run initState es).theme = "light" ∧
    (∀ s : AppState, (toggleTheme s).theme = "light") ∧
    toggleTheme (run initState es) = run initState es := by
  have hth := run_preserves theme_step es initState rfl
  refine ⟨hth, ?_, toggleTheme_self hth⟩
  intro s
  show (toggleTheme s).theme = "light"
  simp only [toggleTheme]
  cases hb : s.theme == "light" <;> rfl

end AiQna
